import Mathlib

/-!
Verification development for the watchdog_exporter repository.

Shallow embedding of the Go sources:
* `validator/tls_checker.go` — TLS handshake-error classification (`CheckHandshakeError`,
  `isTLSError`).
* `validator/response_checker.go` — HTTP response validation (`ValidateResponse`).
* `validator/validator.go` — probe orchestration (`Validate`), modelled up to its
  URL/proxy parsing prefix (the network part is abstracted).
* `prober/engine.go` — `Result`, `Store.keyOf`, `Engine.keyOf`.
* `metrics/metrics.go` — `WDMetrics` state, `OnResult`, `RebuildAll`, `deriveStatus`,
  `mapTLSErrorToStatus`, `baseKeyOf`.

Modelling conventions:
* Go `string` is Lean `String`; Go byte slices are `List Char` (all probe data is ASCII).
* Go `float64` values (durations, days-left, gauge values) are modelled as `ℚ`; no claim
  exercises floating-point rounding, the values are only stored and compared.
* `time.Time` is modelled by its Unix timestamp (`Int`), which is the only way the
  metrics code consumes it (`r.At.Unix()`).
* Go `error` values are the inductive `GoError` below; `errors.As` unwrapping through
  `*url.Error` is modelled by structural recursion.
* Prometheus `GaugeVec`s are association lists from label structures to `ℚ`;
  `With(l).Set(v)` replaces the entry for `l`, `Delete(l)` removes it, `Reset()` empties
  the vector.  The Go maps `lastByKey`/`lastCertByKey` are association lists keyed by
  `String`.
-/

/-! ## Go error values

`GoError` models the error values that can reach this program's classification code:
the three `crypto/x509` structural error types inspected by `CheckHandshakeError`,
`*url.Error` (which wraps a transport error and is unwrapped by `errors.As`),
and any other error, carried as its rendered message.
For `x509.CertificateInvalidError` only `Reason == x509.Expired` is ever distinguished,
so the reason is modelled as the Boolean `expired`.  Each structural constructor carries
the string its Go `Error()` method renders. -/
inductive GoError where
  | certificateInvalid (expired : Bool) (msg : String)
  | unknownAuthority (msg : String)
  | hostnameError (msg : String)
  | urlError (op url : String) (wrapped : GoError)
  | basic (msg : String)
deriving DecidableEq

/-- The string `err.Error()` renders; `url.Error` formats as `op "url": wrapped`. -/
def GoError.message : GoError → String
  | .certificateInvalid _ m => m
  | .unknownAuthority m => m
  | .hostnameError m => m
  | .urlError op u w => op ++ " \"" ++ u ++ "\": " ++ w.message
  | .basic m => m

/-- `errors.As(err, *x509.CertificateInvalidError)`: finds the first certificate-invalid
error in the unwrap chain and yields whether its reason is `x509.Expired`. -/
def GoError.asCertificateInvalid : GoError → Option Bool
  | .certificateInvalid e _ => some e
  | .urlError _ _ w => w.asCertificateInvalid
  | _ => none

/-- `errors.As(err, *x509.UnknownAuthorityError)`. -/
def GoError.asUnknownAuthority : GoError → Bool
  | .unknownAuthority _ => true
  | .urlError _ _ w => w.asUnknownAuthority
  | _ => false

/-- `errors.As(err, *x509.HostnameError)`. -/
def GoError.asHostnameError : GoError → Bool
  | .hostnameError _ => true
  | .urlError _ _ w => w.asHostnameError
  | _ => false

/-- `errors.As(err, **url.Error)`: yields the fields of the outermost `*url.Error`. -/
def GoError.asURLError : GoError → Option (String × String × GoError)
  | .urlError op u w => some (op, u, w)
  | _ => none

/-- Go `strings.Contains s sub`. -/
def goContains (s sub : String) : Bool := decide (sub.data <:+: s.data)

/-- Go `strings.ToLower` on the ASCII data this program handles. -/
def goToLower (s : String) : String := String.mk (s.data.map Char.toLower)

/-! ## TLS Inspector — `validator/tls_checker.go` -/

/-- `isTLSError` from `tls_checker.go`: a wrapped transport error is TLS-related when it
is structurally one of the x509 error types or its lowercased text contains one of the
substrings `tls`, `certificate`, `handshake`. -/
def isTLSError (err : GoError) : Bool :=
  err.asCertificateInvalid.isSome
  || err.asUnknownAuthority
  || err.asHostnameError
  || goContains (goToLower err.message) "tls"
  || goContains (goToLower err.message) "certificate"
  || goContains (goToLower err.message) "handshake"

/-- `DefaultTLSChecker.CheckHandshakeError` from `tls_checker.go`. -/
def CheckHandshakeError (err : GoError) : String × Bool :=
  match err.asCertificateInvalid with
  | some true => ("expired-cert-leaf", true)
  | some false => ("invalid-tls-certificate", true)
  | none =>
    if err.asUnknownAuthority then ("invalid-tls-chain", true)
    else if err.asHostnameError then ("invalid-tls-hostname", true)
    else
      match err.asURLError with
      | some (_, _, w) =>
        if isTLSError w then ("invalid-tls-chain", true) else ("", false)
      | none => ("", false)

/-! ## Data model — `prober/engine.go` (`Result`) and `tls_checker.go` (reports) -/

/-- `CertInfo` from `tls_checker.go` (`NotAfter` as a Unix timestamp, `DaysLeft` as ℚ). -/
structure CertInfo where
  position : Int
  serialHex : String
  commonName : String
  notAfter : Int
  daysLeft : ℚ
  isCA : Bool
  issuerCN : String
  subjectAltNames : List String
deriving DecidableEq

/-- `CertsReport` from `tls_checker.go`. -/
structure CertsReport where
  hadTLS : Bool
  chainValid : Bool
  certificates : List CertInfo
deriving DecidableEq

/-- `Result` from `prober/engine.go`; the Go field `At : time.Time` is modelled by its
Unix timestamp `completedAt : Int`, the only form the metrics code consumes. -/
structure Result where
  group : String
  endpoint : String
  protocol : String
  url : String
  route : String
  status : String
  duration : ℚ
  err : Option GoError
  tls : Option CertsReport
  completedAt : Int
deriving DecidableEq

namespace Store

/-- `Store.keyOf` from `prober/engine.go`. -/
def keyOf (r : Result) : String :=
  r.group ++ "\x00" ++ r.endpoint ++ "\x00" ++ r.route ++ "\x00" ++ r.protocol ++ "\x00" ++ r.url

end Store

namespace Engine

/-- `Engine.keyOf` from `prober/engine.go` (documented there as mirroring `Store.keyOf`
without taking the store lock). -/
def keyOf (r : Result) : String :=
  r.group ++ "\x00" ++ r.endpoint ++ "\x00" ++ r.route ++ "\x00" ++ r.protocol ++ "\x00" ++ r.url

end Engine

/-! ## Status derivation — `metrics/metrics.go` -/

/-- `mapTLSErrorToStatus` from `metrics/metrics.go`. -/
def mapTLSErrorToStatus (errMsg : String) : String :=
  let m := goToLower errMsg
  if goContains m "expired-cert-leaf" then "expired-cert-leaf"
  else if goContains m "invalid-tls-chain" then "invalid-tls-chain"
  else if goContains m "invalid-tls-hostname" then "invalid-tls-hostname"
  else if goContains m "invalid-tls-certificate" then "invalid-tls-certificate"
  else if goContains m "unknownauthorityerror" then "invalid-tls-unknown-authority"
  else if goContains m "certificateinvaliderror" then "invalid-tls-certificate"
  else if goContains m "hostnameerror" then "invalid-tls-hostname"
  else if goContains m "handshake" then "invalid-tls-handshake"
  else if goContains m "tls" then "invalid-tls-other"
  else ""

/-- The part of `deriveStatus` after the TLS-report checks (error classification,
explicit status, catch-alls), split out for structured reasoning. -/
def deriveStatusTail (r : Result) : String :=
  match r.err with
  | some e =>
    let tlsStatus := mapTLSErrorToStatus e.message
    if tlsStatus ≠ "" then tlsStatus
    else if r.status ≠ "" then r.status
    else "unknown-error"
  | none =>
    if r.status ≠ "" then r.status
    else "valid"

/-- `deriveStatus` from `metrics/metrics.go`. -/
def deriveStatus (r : Result) : String :=
  match r.tls with
  | some t =>
    if !t.hadTLS then "invalid-tls-missing"
    else if !t.chainValid then "invalid-tls-chain"
    else deriveStatusTail r
  | none => deriveStatusTail r

/-! ## HTTP Response Validator — `validator/response_checker.go`

`ValidateResponse` receives the parsed `*http.Response`.  Its header map is a Go
`textproto.MIMEHeader` whose keys `net/http` stores in canonical MIME form; it is
modelled as an association list `List (String × List String)`.  The response body is a
byte stream, modelled as the list of bytes the stream yields followed by an optional
read error (`none` = clean EOF after those bytes). -/

/-- `validHeaderFieldByte` from Go `net/textproto`: ASCII letters and digits plus the
RFC 7230 token specials (codes 39 and 96 are the apostrophe and the backtick). -/
def validHeaderFieldChar (c : Char) : Bool :=
  c.isAlphanum || c = Char.ofNat 33 || c = Char.ofNat 35 || c = Char.ofNat 36
  || c = Char.ofNat 37 || c = Char.ofNat 38 || c = Char.ofNat 39 || c = Char.ofNat 42
  || c = Char.ofNat 43 || c = Char.ofNat 45 || c = Char.ofNat 46 || c = Char.ofNat 94
  || c = Char.ofNat 95 || c = Char.ofNat 96 || c = Char.ofNat 124 || c = Char.ofNat 126

/-- The canonicalization loop of `textproto.CanonicalMIMEHeaderKey`: uppercase the first
letter and every letter following a hyphen, lowercase the rest. -/
def canonicalizeChars : Bool → List Char → List Char
  | _, [] => []
  | upper, c :: cs =>
    let c2 := if upper then c.toUpper else c.toLower
    c2 :: canonicalizeChars (c2 = Char.ofNat 45) cs

/-- `textproto.CanonicalMIMEHeaderKey`: keys containing a non-token byte are returned
unchanged, otherwise the canonical form is produced. -/
def canonicalMIMEHeaderKey (s : String) : String :=
  if s.data.all validHeaderFieldChar then String.mk (canonicalizeChars true s.data) else s

/-- `http.Header.Get` (via `textproto.MIMEHeader.Get`): canonicalize the key, look it up,
and return the first value, or `""` when the key is absent or has no values. -/
def headerGet (h : List (String × List String)) (k : String) : String :=
  match h.find? (fun p => decide (p.1 = canonicalMIMEHeaderKey k)) with
  | some p =>
    match p.2 with
    | [] => ""
    | v :: _ => v
  | none => ""

/-- `config.EndpointValidation` from `config/config.go`; the `Headers` Go map is an
association list whose order stands for the map's iteration order. -/
structure EndpointValidation where
  statusCode : Int
  headers : List (String × String)
  bodyRegex : String
deriving DecidableEq

/-- A body-read error, as classified by `isTimeoutErr` in `validator/validator.go`:
`timeout` is the value `isTimeoutErr` returns for it. -/
structure ReadErr where
  timeout : Bool
  msg : String
deriving DecidableEq

/-- The fields of `*http.Response` that `ValidateResponse` consumes.  `body` is the byte
sequence the body stream yields before `bodyErr` (a read error) or, when `bodyErr` is
`none`, before clean EOF. -/
structure Response where
  statusCode : Int
  header : List (String × List String)
  body : List Char
  bodyErr : Option ReadErr
deriving DecidableEq

/-- `io.ReadAll(io.LimitReader(body, limit))`: if the stream yields at least
`limit.toNat` bytes, exactly that prefix is read and any later failure or content is
never observed; otherwise the whole stream is read and a pending read error surfaces. -/
def readLimited (limit : Int) (body : List Char) (bodyErr : Option ReadErr) :
    Except ReadErr (List Char) :=
  if limit.toNat ≤ body.length then .ok (body.take limit.toNat)
  else
    match bodyErr with
    | some e => .error e
    | none => .ok body

/-- The header loop of `ValidateResponse`: `true` iff some required header's expected
value differs from `resp.Header.Get(k)` (the Go loop returns on the first such entry,
which is observationally the same). -/
def headersMismatch (h : List (String × List String)) : List (String × String) → Bool
  | [] => false
  | (k, expected) :: rest =>
    if headerGet h k ≠ expected then true else headersMismatch h rest

/-- `DefaultHTTPResponseChecker.ValidateResponse` from `response_checker.go`.
`regexpMatch pat bytes` stands for Go's `regexp.Match(pat, bytes)` (the regexp engine is
an external library); for the metacharacter-free patterns exercised here it is
instantiated with `goRegexpMatchLit` below. -/
def ValidateResponse (regexpMatch : String → List Char → Bool) (resp : Response)
    (responseBodyLimit : Int) (v : EndpointValidation) : String × Option ReadErr :=
  if resp.statusCode ≠ v.statusCode then ("unexpected-status-code", none)
  else if headersMismatch resp.header v.headers then ("unexpected-header-value", none)
  else if v.bodyRegex ≠ "" then
    match readLimited responseBodyLimit resp.body resp.bodyErr with
    | .error readErr =>
      if readErr.timeout then ("request-execution-timeout", some readErr)
      else ("request-execution-error", some readErr)
    | .ok body =>
      if !regexpMatch v.bodyRegex body then ("unexpected-body-regex", none)
      else ("valid", none)
  else ("valid", none)

/-- `regexp.Match` restricted to patterns without regex metacharacters, for which RE2's
unanchored match is exactly substring containment. -/
def goRegexpMatchLit (pat : String) (body : List Char) : Bool :=
  decide (pat.data <:+: body)

/-- Modelled from the spec: the header check as the spec's words describe it — a
case-sensitive key lookup (`Every required header: case-sensitive key, exact value
match against the first value of that header`).  Compared against `headerGet`,
which canonicalizes the key. -/
def headerGetCaseSensitive (h : List (String × List String)) (k : String) : String :=
  match h.find? (fun p => decide (p.1 = k)) with
  | some p =>
    match p.2 with
    | [] => ""
    | v :: _ => v
  | none => ""

/-- Modelled from the spec: the header loop with the case-sensitive lookup. -/
def headersMismatchCaseSensitive (h : List (String × List String)) :
    List (String × String) → Bool
  | [] => false
  | (k, expected) :: rest =>
    if headerGetCaseSensitive h k ≠ expected then true
    else headersMismatchCaseSensitive h rest

/-- Modelled from the spec: `ValidateResponse` as the spec's words describe the header
step, with a case-sensitive header-key match; the remaining steps follow the code. -/
def ValidateResponseCaseSensitive (regexpMatch : String → List Char → Bool)
    (resp : Response) (responseBodyLimit : Int) (v : EndpointValidation) :
    String × Option ReadErr :=
  if resp.statusCode ≠ v.statusCode then ("unexpected-status-code", none)
  else if headersMismatchCaseSensitive resp.header v.headers then
    ("unexpected-header-value", none)
  else if v.bodyRegex ≠ "" then
    match readLimited responseBodyLimit resp.body resp.bodyErr with
    | .error readErr =>
      if readErr.timeout then ("request-execution-timeout", some readErr)
      else ("request-execution-error", some readErr)
    | .ok body =>
      if !regexpMatch v.bodyRegex body then ("unexpected-body-regex", none)
      else ("valid", none)
  else ("valid", none)

/-! ## Probe Validator — `validator/validator.go`

`WatchDogValidator.Validate` first parses the target URL, then (when the route has one)
the proxy URL, and only then builds the transport and executes the request.  The network
part performs I/O, so it is abstracted: `run u proxy?` stands for everything the code
does after both parses succeed.  `parseURL` stands for `url.Parse`; `U` is the parsed
representation.  The returned tuple mirrors Go's
`(status string, duration float64, certsRep *CertsReport, err error)`. -/

/-- `config.EndpointRequest` from `config/config.go` (`Timeout` in nanoseconds). -/
structure EndpointRequest where
  method : String
  headers : List (String × String)
  url : String
  timeout : Int
  responseBodyLimit : Int
deriving DecidableEq

/-- `config.Route` from `config/config.go`. -/
structure Route where
  proxyUrl : String
  targetIP : String
deriving DecidableEq

/-- The URL/proxy parsing stage of `WatchDogValidator.Validate` from
`validator/validator.go`; `run` abstracts the transport construction and request
execution that follow. -/
def Validate {U : Type} (parseURL : String → Except GoError U)
    (run : U → Option U → String × ℚ × Option CertsReport × Option GoError)
    (rc : EndpointRequest) (route : Route) :
    String × ℚ × Option CertsReport × Option GoError :=
  match parseURL rc.url with
  | .error e => ("invalid-url", 0, none, some e)
  | .ok u =>
    if route.proxyUrl ≠ "" then
      match parseURL route.proxyUrl with
      | .error pErr => ("invalid-proxy-definition", 0, none, some pErr)
      | .ok pu => run u (some pu)
    else run u none

/-! ## Metrics Lifecycle Manager — `metrics/metrics.go`

A `prometheus.GaugeVec` is modelled as an association list from a label structure to ℚ;
`With(l).Set(v)` replaces the entry for `l`, `Delete(l)` removes it, `Reset()` empties
the list.  The tracking maps `lastByKey`/`lastCertByKey` are association lists keyed by
`String`.  The constant `BuildInfo` gauge is set once at construction and touched by
neither `OnResult` nor `RebuildAll`, so it is not part of the mutable state. -/

/-- `GaugeVec.With(l).Set(v)`. -/
def gaugeSet {L : Type} [DecidableEq L] (vec : List (L × ℚ)) (l : L) (v : ℚ) :
    List (L × ℚ) :=
  (l, v) :: vec.filter (fun p => !decide (p.1 = l))

/-- `GaugeVec.Delete(l)`. -/
def gaugeDelete {L : Type} [DecidableEq L] (vec : List (L × ℚ)) (l : L) : List (L × ℚ) :=
  vec.filter (fun p => !decide (p.1 = l))

/-- Deleting a list of label sets one by one (the `for _, pl := range prevs` loops). -/
def gaugeDeleteAll {L : Type} [DecidableEq L] (vec : List (L × ℚ)) (ls : List L) :
    List (L × ℚ) :=
  ls.foldl gaugeDelete vec

/-- The current value of a series, `none` when the label set is not live. -/
def gaugeLookup {L : Type} [DecidableEq L] (vec : List (L × ℚ)) (l : L) : Option ℚ :=
  (vec.find? (fun p => decide (p.1 = l))).map (fun p => p.2)

/-- Go map assignment `m[k] = v`. -/
def mapInsert {β : Type} (m : List (String × β)) (k : String) (v : β) :
    List (String × β) :=
  (k, v) :: m.filter (fun p => !decide (p.1 = k))

/-- Go `delete(m, k)`. -/
def mapErase {β : Type} (m : List (String × β)) (k : String) : List (String × β) :=
  m.filter (fun p => !decide (p.1 = k))

/-- Go map read `m[k]` with its `ok` flag. -/
def mapLookup {β : Type} (m : List (String × β)) (k : String) : Option β :=
  (m.find? (fun p => decide (p.1 = k))).map (fun p => p.2)

/-- The label values of `baseEndpointLabels` in `metrics.go`. -/
structure BaseLabels where
  group : String
  endpoint : String
  protocol : String
  url : String
  route : String
deriving DecidableEq

/-- The label values of `endpointResultLabels` in `metrics.go`. -/
structure ResultLabels where
  group : String
  endpoint : String
  protocol : String
  url : String
  route : String
  status : String
  isError : String
deriving DecidableEq

/-- The label values of `certLabels` in `metrics.go`. -/
structure CertLabels where
  group : String
  endpoint : String
  protocol : String
  url : String
  route : String
  certPosition : String
  certSerial : String
  certCn : String
  certIsCa : String
  certIssuerCn : String
deriving DecidableEq

/-- The mutable state of `WDMetrics`: the four managed gauge vectors and the two
last-applied tracking maps. -/
structure WDMetrics where
  endpointLastProbeTimestamp : List (BaseLabels × ℚ)
  endpointValidation : List (ResultLabels × ℚ)
  endpointDuration : List (ResultLabels × ℚ)
  endpointTLSCertDaysLeft : List (CertLabels × ℚ)
  lastByKey : List (String × ResultLabels)
  lastCertByKey : List (String × List CertLabels)
deriving DecidableEq

/-- The state `NewWDMetrics` constructs: every vector and tracking map empty. -/
def NewWDMetrics : WDMetrics := ⟨[], [], [], [], [], []⟩

/-- `baseKeyOf` from `metrics.go` (field order differs from `Store.keyOf`). -/
def baseKeyOf (r : Result) : String :=
  r.group ++ "\x00" ++ r.endpoint ++ "\x00" ++ r.protocol ++ "\x00" ++ r.url ++ "\x00" ++ r.route

/-- `lblBase` as built in `OnResult`. -/
def lblBaseOf (r : Result) : BaseLabels :=
  ⟨r.group, r.endpoint, r.protocol, r.url, r.route⟩

/-- The `is_error` label value computed at the top of `OnResult`. -/
def isErrStr (r : Result) : String :=
  if r.err.isSome then "true" else "false"

/-- `lblAll` as built in `OnResult`. -/
def lblAllOf (r : Result) : ResultLabels :=
  ⟨r.group, r.endpoint, r.protocol, r.url, r.route, deriveStatus r, isErrStr r⟩

/-- `lblCert` as built in `buildAndSetCertSeries` (`strconv.Itoa` and `fmt.Sprintf "%v"`
render the position and the CA flag). -/
def certLabelOf (r : Result) (c : CertInfo) : CertLabels :=
  ⟨r.group, r.endpoint, r.protocol, r.url, r.route,
    toString c.position, c.serialHex, c.commonName,
    (if c.isCA then "true" else "false"), c.issuerCN⟩

/-- The loop body of `buildAndSetCertSeries`: set one days-left series per certificate
(in chain order) and collect the created label sets. -/
def setCertSeries (r : Result) : List CertInfo → List (CertLabels × ℚ) →
    List (CertLabels × ℚ) × List CertLabels
  | [], vec => (vec, [])
  | c :: cs, vec =>
    let res := setCertSeries r cs (gaugeSet vec (certLabelOf r c) c.daysLeft)
    (res.1, certLabelOf r c :: res.2)

/-- Steps 1–3 of `OnResult`: set the last-probe timestamp, delete the previously applied
validation/duration series for this key (when present), record and set the new ones. -/
def applyValDur (m : WDMetrics) (r : Result) : WDMetrics :=
  let m1 := { m with
    endpointLastProbeTimestamp :=
      gaugeSet m.endpointLastProbeTimestamp (lblBaseOf r) (r.completedAt : ℚ) }
  let lblAll := lblAllOf r
  let key := baseKeyOf r
  let m2 :=
    match mapLookup m1.lastByKey key with
    | some prev =>
      { m1 with
        endpointValidation := gaugeDelete m1.endpointValidation prev
        endpointDuration := gaugeDelete m1.endpointDuration prev
        lastByKey := mapInsert m1.lastByKey key lblAll }
    | none => { m1 with lastByKey := mapInsert m1.lastByKey key lblAll }
  { m2 with
    endpointValidation := gaugeSet m2.endpointValidation lblAll 1
    endpointDuration := gaugeSet m2.endpointDuration lblAll r.duration }

/-- The `else` arm of the certificate handling in `OnResult`: delete any previously
applied certificate series for this key and clear its tracking entry. -/
def certClear (m : WDMetrics) (key : String) : WDMetrics :=
  match mapLookup m.lastCertByKey key with
  | some prevs =>
    { m with
      endpointTLSCertDaysLeft := gaugeDeleteAll m.endpointTLSCertDaysLeft prevs
      lastCertByKey := mapErase m.lastCertByKey key }
  | none => m

/-- Steps 4–5 of `OnResult`: when the Result carries a TLS report with `HadTLS`, replace
this key's certificate series with fresh ones; otherwise clear them. -/
def applyCerts (m : WDMetrics) (r : Result) : WDMetrics :=
  let key := baseKeyOf r
  match r.tls with
  | some t =>
    if t.hadTLS then
      let delVec :=
        match mapLookup m.lastCertByKey key with
        | some prevs => gaugeDeleteAll m.endpointTLSCertDaysLeft prevs
        | none => m.endpointTLSCertDaysLeft
      let res := setCertSeries r t.certificates delVec
      { m with
        endpointTLSCertDaysLeft := res.1
        lastCertByKey := mapInsert m.lastCertByKey key res.2 }
    else certClear m key
  | none => certClear m key

/-- `WDMetrics.OnResult` from `metrics.go`. -/
def OnResult (m : WDMetrics) (r : Result) : WDMetrics :=
  applyCerts (applyValDur m r) r

/-- `WDMetrics.RebuildAll` from `metrics.go`: reset the four managed vectors, clear both
tracking maps, then replay `OnResult` over the provider snapshot. -/
def RebuildAll (m : WDMetrics) (snapshot : List Result) : WDMetrics :=
  let m0 := { m with
    endpointValidation := ([] : List (ResultLabels × ℚ))
    endpointDuration := ([] : List (ResultLabels × ℚ))
    endpointLastProbeTimestamp := ([] : List (BaseLabels × ℚ))
    endpointTLSCertDaysLeft := ([] : List (CertLabels × ℚ))
    lastByKey := ([] : List (String × ResultLabels))
    lastCertByKey := ([] : List (String × List CertLabels)) }
  snapshot.foldl OnResult m0

/-- Applying a whole history of results to the freshly constructed metrics state. -/
def applyResults (rs : List Result) : WDMetrics :=
  rs.foldl OnResult NewWDMetrics

/-- The target key encoded in a validation/duration label set (its base fields joined
exactly as `baseKeyOf` joins the Result fields). -/
def labelKeyOfResult (l : ResultLabels) : String :=
  l.group ++ "\x00" ++ l.endpoint ++ "\x00" ++ l.protocol ++ "\x00" ++ l.url ++ "\x00" ++ l.route

/-- The target key encoded in a certificate label set. -/
def labelKeyOfCert (l : CertLabels) : String :=
  l.group ++ "\x00" ++ l.endpoint ++ "\x00" ++ l.protocol ++ "\x00" ++ l.url ++ "\x00" ++ l.route

/-- The live validation series whose labels carry the target key `k`. -/
def validationSeriesFor (m : WDMetrics) (k : String) : List (ResultLabels × ℚ) :=
  m.endpointValidation.filter (fun p => decide (labelKeyOfResult p.1 = k))

/-- The live duration series whose labels carry the target key `k`. -/
def durationSeriesFor (m : WDMetrics) (k : String) : List (ResultLabels × ℚ) :=
  m.endpointDuration.filter (fun p => decide (labelKeyOfResult p.1 = k))

/-! ## Spec-modelled comparison definitions and concrete instances -/

/-- Modelled from the spec: `ClassifyHandshakeError` as §4.2 words it — structural type
checks first, then a substring fallback on the wrapped error text for the listed
categories (`chain`, `hostname`, `certificate`, `unknown-authority`, `handshake`,
generic `tls`), with labels drawn from the §4.7 taxonomy.  Compared with
`CheckHandshakeError`, which is translated from the code. -/
def classifyHandshakeErrorSpec (err : GoError) : String × Bool :=
  match err.asCertificateInvalid with
  | some true => ("expired-cert-leaf", true)
  | some false => ("invalid-tls-certificate", true)
  | none =>
    if err.asUnknownAuthority then ("invalid-tls-unknown-authority", true)
    else if err.asHostnameError then ("invalid-tls-hostname", true)
    else
      match err.asURLError with
      | some (_, _, w) =>
        let msg := goToLower w.message
        if goContains msg "chain" then ("invalid-tls-chain", true)
        else if goContains msg "hostname" then ("invalid-tls-hostname", true)
        else if goContains msg "certificate" then ("invalid-tls-certificate", true)
        else if goContains msg "unknown-authority" then
          ("invalid-tls-unknown-authority", true)
        else if goContains msg "handshake" then ("invalid-tls-handshake", true)
        else if goContains msg "tls" then ("invalid-tls-other", true)
        else ("", false)
      | none => ("", false)

/-- A transport error whose wrapped text mentions a chain but none of the substrings the
code actually checks (`tls`, `certificate`, `handshake`). -/
def errC4 : GoError := .urlError "Get" "https://example.com" (.basic "broken chain")

/-- A response whose header map stores the canonical key `X-Test`, as `net/http`
produces it. -/
def respC3 : Response := ⟨200, [("X-Test", ["value"])], [], none⟩

/-- A validation rule naming the required header in lowercase. -/
def evC3 : EndpointValidation := ⟨200, [("x-test", "value")], ""⟩

/-- A validation rule expecting a value the response's `X-Test` header does not have. -/
def evC3mis : EndpointValidation := ⟨200, [("x-test", "other")], ""⟩

/-- A Result carrying a TLS report with `hadTLS = false`. -/
def rC1missing : Result :=
  ⟨"g", "e", "https", "https://a", "direct", "valid", 1, some (.basic "boom"),
    some ⟨false, false, []⟩, 100⟩

/-- A Result carrying a TLS report with `hadTLS = true`, `chainValid = false`, an error
whose text would classify differently, and its own status string. -/
def rC1chain : Result :=
  ⟨"g", "e", "https", "https://a", "direct", "valid", 1,
    some (.basic "remote error: handshake failure"), some ⟨true, false, []⟩, 100⟩

/-- First probe outcome for one target key. -/
def r1C2 : Result :=
  ⟨"g", "e", "https", "https://a", "direct", "valid", 1, none, none, 100⟩

/-- Second probe outcome for the same target key with a different status. -/
def r2C2 : Result :=
  ⟨"g", "e", "https", "https://a", "direct", "unexpected-status-code", 2, none, none, 160⟩

/-- A Result with an empty status field, no error and no TLS report. -/
def rC10 : Result := ⟨"", "", "", "", "", "", 0, none, none, 0⟩

/-- A `url.Parse` stand-in for the `Validate` witnesses: accepts one fixed URL. -/
def parseC8 : String → Except GoError Unit :=
  fun s => if s = "http://ok" then .ok () else .error (.basic s)

/-- A transport/request stage stand-in for the `Validate` witnesses. -/
def runC8 : Unit → Option Unit → String × ℚ × Option CertsReport × Option GoError :=
  fun _ _ => ("valid", 1, none, none)

/-- A request definition whose URL does not parse. -/
def rcBadC8 : EndpointRequest := ⟨"GET", [], "://bad", 5, 1024⟩

/-- A request definition whose URL parses. -/
def rcOkC8 : EndpointRequest := ⟨"GET", [], "http://ok", 5, 1024⟩

/-- A direct route (no proxy). -/
def routeDirectC8 : Route := ⟨"", ""⟩

/-- A route whose proxy URL does not parse. -/
def routeProxyC8 : Route := ⟨"://badproxy", ""⟩

/-! ## Supporting lemmas: association lists and gauge vectors -/

/-- `find?` ignores a filter that only removes elements the search predicate rejects. -/
theorem find?_filter_of_imp {α : Type} (l : List α) (p q : α → Bool)
    (h : ∀ a, q a = false → p a = false) : (l.filter q).find? p = l.find? p := by
  induction l with
  | nil => rfl
  | cons a as ih =>
    by_cases hq : q a
    · rw [List.filter_cons_of_pos hq]
      by_cases hp : p a
      · rw [List.find?_cons_of_pos _ hp, List.find?_cons_of_pos _ hp]
      · rw [List.find?_cons_of_neg _ (by simpa using hp),
          List.find?_cons_of_neg _ (by simpa using hp), ih]
    · rw [List.filter_cons_of_neg (by simpa using hq), ih,
        List.find?_cons_of_neg _ (by simp [h a (by simpa using hq)])]

theorem mapLookup_insert_self {β : Type} (m : List (String × β)) (k : String) (v : β) :
    mapLookup (mapInsert m k v) k = some v := by
  simp [mapLookup, mapInsert, List.find?_cons_of_pos]

theorem mapLookup_insert_ne {β : Type} (m : List (String × β)) (k k' : String) (v : β)
    (h : k' ≠ k) : mapLookup (mapInsert m k v) k' = mapLookup m k' := by
  unfold mapLookup mapInsert
  rw [List.find?_cons_of_neg _ (by simp [Ne.symm h]),
    find?_filter_of_imp _ _ _ (fun a ha => by
      simp only [Bool.not_eq_false', decide_eq_true_eq] at ha
      simp [ha, Ne.symm h])]

theorem mapLookup_erase_ne {β : Type} (m : List (String × β)) (k k' : String)
    (h : k' ≠ k) : mapLookup (mapErase m k) k' = mapLookup m k' := by
  unfold mapLookup mapErase
  rw [find?_filter_of_imp _ _ _ (fun a ha => by
    simp only [Bool.not_eq_false', decide_eq_true_eq] at ha
    simp [ha, Ne.symm h])]

theorem gaugeLookup_set_self {L : Type} [DecidableEq L] (vec : List (L × ℚ)) (l : L)
    (v : ℚ) : gaugeLookup (gaugeSet vec l v) l = some v := by
  simp [gaugeLookup, gaugeSet, List.find?_cons_of_pos]

theorem mem_gaugeSet {L : Type} [DecidableEq L] (vec : List (L × ℚ)) (l : L) (v : ℚ)
    (p : L × ℚ) : p ∈ gaugeSet vec l v ↔ p = (l, v) ∨ (p ∈ vec ∧ p.1 ≠ l) := by
  simp [gaugeSet, List.mem_filter]

theorem mem_gaugeDelete {L : Type} [DecidableEq L] (vec : List (L × ℚ)) (l : L)
    (p : L × ℚ) : p ∈ gaugeDelete vec l ↔ p ∈ vec ∧ p.1 ≠ l := by
  simp [gaugeDelete, List.mem_filter]

theorem mem_gaugeDeleteAll {L : Type} [DecidableEq L] (vec : List (L × ℚ)) (ls : List L)
    (p : L × ℚ) : p ∈ gaugeDeleteAll vec ls ↔ p ∈ vec ∧ p.1 ∉ ls := by
  induction ls generalizing vec with
  | nil => simp [gaugeDeleteAll]
  | cons l ls ih =>
    show p ∈ gaugeDeleteAll (gaugeDelete vec l) ls ↔ _
    rw [ih, mem_gaugeDelete]
    simp only [List.mem_cons]
    tauto

/-- The label sets of a gauge vector are pairwise distinct. -/
def KeysNodup {L : Type} (vec : List (L × ℚ)) : Prop := (vec.map Prod.fst).Nodup

theorem keysNodup_gaugeDelete {L : Type} [DecidableEq L] (vec : List (L × ℚ)) (l : L)
    (h : KeysNodup vec) : KeysNodup (gaugeDelete vec l) :=
  List.Nodup.sublist (List.Sublist.map _ (List.filter_sublist _)) h

theorem keysNodup_gaugeDeleteAll {L : Type} [DecidableEq L] (vec : List (L × ℚ))
    (ls : List L) (h : KeysNodup vec) : KeysNodup (gaugeDeleteAll vec ls) := by
  induction ls generalizing vec with
  | nil => exact h
  | cons l ls ih => exact ih _ (keysNodup_gaugeDelete _ _ h)

theorem keysNodup_gaugeSet {L : Type} [DecidableEq L] (vec : List (L × ℚ)) (l : L)
    (v : ℚ) (h : KeysNodup vec) : KeysNodup (gaugeSet vec l v) := by
  unfold KeysNodup gaugeSet
  rw [List.map_cons, List.nodup_cons]
  refine ⟨?_, keysNodup_gaugeDelete vec l h⟩
  intro hmem
  rcases List.mem_map.mp hmem with ⟨p, hp, hfst⟩
  rcases List.mem_filter.mp hp with ⟨_, hne⟩
  simp only [Bool.not_eq_true', decide_eq_false_iff_not] at hne
  exact hne hfst

theorem setCertSeries_mem (r : Result) (cs : List CertInfo) (vec : List (CertLabels × ℚ))
    (p : CertLabels × ℚ) (hp : p ∈ (setCertSeries r cs vec).1) :
    p ∈ vec ∨ p.1 ∈ (setCertSeries r cs vec).2 := by
  induction cs generalizing vec with
  | nil => exact Or.inl hp
  | cons c cs ih =>
    simp only [setCertSeries] at hp ⊢
    rcases ih _ hp with h1 | h2
    · rcases (mem_gaugeSet _ _ _ _).mp h1 with rfl | ⟨hv, _⟩
      · exact Or.inr (List.mem_cons_self _ _)
      · exact Or.inl hv
    · exact Or.inr (List.mem_cons_of_mem _ h2)

theorem setCertSeries_labels (r : Result) (cs : List CertInfo)
    (vec : List (CertLabels × ℚ)) (l : CertLabels) (hl : l ∈ (setCertSeries r cs vec).2) :
    ∃ c ∈ cs, l = certLabelOf r c := by
  induction cs generalizing vec with
  | nil => simp [setCertSeries] at hl
  | cons c cs ih =>
    simp only [setCertSeries, List.mem_cons] at hl
    rcases hl with rfl | h
    · exact ⟨c, List.mem_cons_self _ _, rfl⟩
    · rcases ih _ h with ⟨c', hc', rfl⟩
      exact ⟨c', List.mem_cons_of_mem _ hc', rfl⟩

theorem setCertSeries_keysNodup (r : Result) (cs : List CertInfo)
    (vec : List (CertLabels × ℚ)) (h : KeysNodup vec) :
    KeysNodup (setCertSeries r cs vec).1 := by
  induction cs generalizing vec with
  | nil => exact h
  | cons c cs ih => exact ih _ (keysNodup_gaugeSet _ _ _ h)

/-! ## The series-lifecycle invariant -/

theorem labelKeyOfResult_lblAllOf (r : Result) :
    labelKeyOfResult (lblAllOf r) = baseKeyOf r := rfl

theorem labelKeyOfCert_certLabelOf (r : Result) (c : CertInfo) :
    labelKeyOfCert (certLabelOf r c) = baseKeyOf r := rfl

/-- Unfolding `applyValDur` when the key already has a tracked label set. -/
theorem applyValDur_eq_some (m : WDMetrics) (r : Result) (prev : ResultLabels)
    (h : mapLookup m.lastByKey (baseKeyOf r) = some prev) :
    applyValDur m r = { m with
      endpointLastProbeTimestamp :=
        gaugeSet m.endpointLastProbeTimestamp (lblBaseOf r) (r.completedAt : ℚ)
      endpointValidation := gaugeSet (gaugeDelete m.endpointValidation prev) (lblAllOf r) 1
      endpointDuration :=
        gaugeSet (gaugeDelete m.endpointDuration prev) (lblAllOf r) r.duration
      lastByKey := mapInsert m.lastByKey (baseKeyOf r) (lblAllOf r) } := by
  simp only [applyValDur, h]

/-- Unfolding `applyValDur` when the key has no tracked label set yet. -/
theorem applyValDur_eq_none (m : WDMetrics) (r : Result)
    (h : mapLookup m.lastByKey (baseKeyOf r) = none) :
    applyValDur m r = { m with
      endpointLastProbeTimestamp :=
        gaugeSet m.endpointLastProbeTimestamp (lblBaseOf r) (r.completedAt : ℚ)
      endpointValidation := gaugeSet m.endpointValidation (lblAllOf r) 1
      endpointDuration := gaugeSet m.endpointDuration (lblAllOf r) r.duration
      lastByKey := mapInsert m.lastByKey (baseKeyOf r) (lblAllOf r) } := by
  simp only [applyValDur, h]

/-- Unfolding `certClear` when the key has tracked certificate label sets. -/
theorem certClear_eq_some (m : WDMetrics) (key : String) (prevs : List CertLabels)
    (h : mapLookup m.lastCertByKey key = some prevs) :
    certClear m key = { m with
      endpointTLSCertDaysLeft := gaugeDeleteAll m.endpointTLSCertDaysLeft prevs
      lastCertByKey := mapErase m.lastCertByKey key } := by
  simp only [certClear, h]

/-- Unfolding `certClear` when the key has no tracked certificate label sets. -/
theorem certClear_eq_none (m : WDMetrics) (key : String)
    (h : mapLookup m.lastCertByKey key = none) : certClear m key = m := by
  simp only [certClear, h]

theorem applyCerts_eq_noReport (m : WDMetrics) (r : Result) (h : r.tls = none) :
    applyCerts m r = certClear m (baseKeyOf r) := by
  simp only [applyCerts, h]

theorem applyCerts_eq_noTLS (m : WDMetrics) (r : Result) (t : CertsReport)
    (h : r.tls = some t) (hh : t.hadTLS = false) :
    applyCerts m r = certClear m (baseKeyOf r) := by
  simp [applyCerts, h, hh]

theorem applyCerts_eq_tls_some (m : WDMetrics) (r : Result) (t : CertsReport)
    (prevs : List CertLabels) (h : r.tls = some t) (hh : t.hadTLS = true)
    (hl : mapLookup m.lastCertByKey (baseKeyOf r) = some prevs) :
    applyCerts m r = { m with
      endpointTLSCertDaysLeft :=
        (setCertSeries r t.certificates
          (gaugeDeleteAll m.endpointTLSCertDaysLeft prevs)).1
      lastCertByKey := mapInsert m.lastCertByKey (baseKeyOf r)
        (setCertSeries r t.certificates
          (gaugeDeleteAll m.endpointTLSCertDaysLeft prevs)).2 } := by
  simp only [applyCerts, h, hh, hl, if_true]

theorem applyCerts_eq_tls_none (m : WDMetrics) (r : Result) (t : CertsReport)
    (h : r.tls = some t) (hh : t.hadTLS = true)
    (hl : mapLookup m.lastCertByKey (baseKeyOf r) = none) :
    applyCerts m r = { m with
      endpointTLSCertDaysLeft :=
        (setCertSeries r t.certificates m.endpointTLSCertDaysLeft).1
      lastCertByKey := mapInsert m.lastCertByKey (baseKeyOf r)
        (setCertSeries r t.certificates m.endpointTLSCertDaysLeft).2 } := by
  simp only [applyCerts, h, hh, hl, if_true]

theorem certClear_endpointValidation (m : WDMetrics) (key : String) :
    (certClear m key).endpointValidation = m.endpointValidation := by
  cases h : mapLookup m.lastCertByKey key
  · rw [certClear_eq_none m key h]
  · rw [certClear_eq_some m key _ h]

theorem certClear_endpointDuration (m : WDMetrics) (key : String) :
    (certClear m key).endpointDuration = m.endpointDuration := by
  cases h : mapLookup m.lastCertByKey key
  · rw [certClear_eq_none m key h]
  · rw [certClear_eq_some m key _ h]

theorem certClear_lastByKey (m : WDMetrics) (key : String) :
    (certClear m key).lastByKey = m.lastByKey := by
  cases h : mapLookup m.lastCertByKey key
  · rw [certClear_eq_none m key h]
  · rw [certClear_eq_some m key _ h]

theorem certClear_lastProbe (m : WDMetrics) (key : String) :
    (certClear m key).endpointLastProbeTimestamp = m.endpointLastProbeTimestamp := by
  cases h : mapLookup m.lastCertByKey key
  · rw [certClear_eq_none m key h]
  · rw [certClear_eq_some m key _ h]

theorem applyCerts_endpointValidation (m : WDMetrics) (r : Result) :
    (applyCerts m r).endpointValidation = m.endpointValidation := by
  rcases h : r.tls with _ | t
  · rw [applyCerts_eq_noReport m r h, certClear_endpointValidation]
  · cases hh : t.hadTLS
    · rw [applyCerts_eq_noTLS m r t h hh, certClear_endpointValidation]
    · cases hl : mapLookup m.lastCertByKey (baseKeyOf r)
      · rw [applyCerts_eq_tls_none m r t h hh hl]
      · rw [applyCerts_eq_tls_some m r t _ h hh hl]

theorem applyCerts_endpointDuration (m : WDMetrics) (r : Result) :
    (applyCerts m r).endpointDuration = m.endpointDuration := by
  rcases h : r.tls with _ | t
  · rw [applyCerts_eq_noReport m r h, certClear_endpointDuration]
  · cases hh : t.hadTLS
    · rw [applyCerts_eq_noTLS m r t h hh, certClear_endpointDuration]
    · cases hl : mapLookup m.lastCertByKey (baseKeyOf r)
      · rw [applyCerts_eq_tls_none m r t h hh hl]
      · rw [applyCerts_eq_tls_some m r t _ h hh hl]

theorem applyCerts_lastByKey (m : WDMetrics) (r : Result) :
    (applyCerts m r).lastByKey = m.lastByKey := by
  rcases h : r.tls with _ | t
  · rw [applyCerts_eq_noReport m r h, certClear_lastByKey]
  · cases hh : t.hadTLS
    · rw [applyCerts_eq_noTLS m r t h hh, certClear_lastByKey]
    · cases hl : mapLookup m.lastCertByKey (baseKeyOf r)
      · rw [applyCerts_eq_tls_none m r t h hh hl]
      · rw [applyCerts_eq_tls_some m r t _ h hh hl]

theorem applyCerts_lastProbe (m : WDMetrics) (r : Result) :
    (applyCerts m r).endpointLastProbeTimestamp = m.endpointLastProbeTimestamp := by
  rcases h : r.tls with _ | t
  · rw [applyCerts_eq_noReport m r h, certClear_lastProbe]
  · cases hh : t.hadTLS
    · rw [applyCerts_eq_noTLS m r t h hh, certClear_lastProbe]
    · cases hl : mapLookup m.lastCertByKey (baseKeyOf r)
      · rw [applyCerts_eq_tls_none m r t h hh hl]
      · rw [applyCerts_eq_tls_some m r t _ h hh hl]

/-- The at-most-one-live-series invariant maintained by `OnResult`: label sets within
each managed vector are pairwise distinct, every live validation/duration series is the
one recorded in `lastByKey` for its target key, and every live certificate series
belongs to the list recorded in `lastCertByKey` for its target key. -/
structure WDInv (m : WDMetrics) : Prop where
  valNodup : KeysNodup m.endpointValidation
  durNodup : KeysNodup m.endpointDuration
  certNodup : KeysNodup m.endpointTLSCertDaysLeft
  valTracked : ∀ p ∈ m.endpointValidation,
    mapLookup m.lastByKey (labelKeyOfResult p.1) = some p.1
  durTracked : ∀ p ∈ m.endpointDuration,
    mapLookup m.lastByKey (labelKeyOfResult p.1) = some p.1
  certTracked : ∀ p ∈ m.endpointTLSCertDaysLeft,
    ∃ ls, mapLookup m.lastCertByKey (labelKeyOfCert p.1) = some ls ∧ p.1 ∈ ls

theorem wdinv_new : WDInv NewWDMetrics := by
  constructor <;> simp [NewWDMetrics, KeysNodup]

theorem wdinv_applyValDur (m : WDMetrics) (r : Result) (h : WDInv m) :
    WDInv (applyValDur m r) := by
  have tracked_step :
      ∀ (vec : List (ResultLabels × ℚ)) (v : ℚ),
        (∀ p ∈ vec, mapLookup m.lastByKey (labelKeyOfResult p.1) = some p.1) →
        (∀ p ∈ vec, labelKeyOfResult p.1 ≠ baseKeyOf r) →
        (∀ q ∈ gaugeSet vec (lblAllOf r) v,
          mapLookup (mapInsert m.lastByKey (baseKeyOf r) (lblAllOf r))
            (labelKeyOfResult q.1) = some q.1) := by
    intro vec v htr hkey q hq
    rcases (mem_gaugeSet _ _ _ _).mp hq with rfl | ⟨hv, _⟩
    · show mapLookup _ (labelKeyOfResult (lblAllOf r)) = some (lblAllOf r)
      rw [labelKeyOfResult_lblAllOf, mapLookup_insert_self]
    · rw [mapLookup_insert_ne _ _ _ _ (hkey q hv)]
      exact htr q hv
  cases hl : mapLookup m.lastByKey (baseKeyOf r) with
  | some prev =>
    rw [applyValDur_eq_some m r prev hl]
    have hkeyOf : ∀ (vec : List (ResultLabels × ℚ)),
        (∀ p ∈ vec, mapLookup m.lastByKey (labelKeyOfResult p.1) = some p.1) →
        ∀ p ∈ gaugeDelete vec prev, labelKeyOfResult p.1 ≠ baseKeyOf r := by
      intro vec htr p hp hk
      rcases (mem_gaugeDelete _ _ _).mp hp with ⟨hv, hne⟩
      have hold := htr p hv
      rw [hk, hl] at hold
      exact hne (Option.some.inj hold).symm
    refine ⟨keysNodup_gaugeSet _ _ _ (keysNodup_gaugeDelete _ _ h.valNodup),
      keysNodup_gaugeSet _ _ _ (keysNodup_gaugeDelete _ _ h.durNodup),
      h.certNodup, ?_, ?_, h.certTracked⟩
    · exact tracked_step _ _
        (fun p hp => h.valTracked p ((mem_gaugeDelete _ _ _).mp hp).1)
        (hkeyOf _ h.valTracked)
    · exact tracked_step _ _
        (fun p hp => h.durTracked p ((mem_gaugeDelete _ _ _).mp hp).1)
        (hkeyOf _ h.durTracked)
  | none =>
    rw [applyValDur_eq_none m r hl]
    have hkeyOf : ∀ (vec : List (ResultLabels × ℚ)),
        (∀ p ∈ vec, mapLookup m.lastByKey (labelKeyOfResult p.1) = some p.1) →
        ∀ p ∈ vec, labelKeyOfResult p.1 ≠ baseKeyOf r := by
      intro vec htr p hp hk
      have hold := htr p hp
      rw [hk, hl] at hold
      exact Option.noConfusion hold
    exact ⟨keysNodup_gaugeSet _ _ _ h.valNodup, keysNodup_gaugeSet _ _ _ h.durNodup,
      h.certNodup, tracked_step _ _ h.valTracked (hkeyOf _ h.valTracked),
      tracked_step _ _ h.durTracked (hkeyOf _ h.durTracked), h.certTracked⟩

theorem wdinv_certClear (m : WDMetrics) (key : String) (h : WDInv m) :
    WDInv (certClear m key) := by
  cases hl : mapLookup m.lastCertByKey key with
  | none => rw [certClear_eq_none m key hl]; exact h
  | some prevs =>
    rw [certClear_eq_some m key prevs hl]
    refine ⟨h.valNodup, h.durNodup, keysNodup_gaugeDeleteAll _ _ h.certNodup,
      h.valTracked, h.durTracked, ?_⟩
    intro p hp
    rcases (mem_gaugeDeleteAll _ _ _).mp hp with ⟨hv, hnp⟩
    rcases h.certTracked p hv with ⟨ls, hls, hmem⟩
    by_cases hk : labelKeyOfCert p.1 = key
    · rw [hk, hl] at hls
      exact absurd ((Option.some.inj hls).symm ▸ hmem) hnp
    · exact ⟨ls, by rw [mapLookup_erase_ne _ _ _ hk]; exact hls, hmem⟩

theorem wdinv_applyCerts (m : WDMetrics) (r : Result) (h : WDInv m) :
    WDInv (applyCerts m r) := by
  rcases htls : r.tls with _ | t
  · rw [applyCerts_eq_noReport m r htls]; exact wdinv_certClear m _ h
  · cases hhad : t.hadTLS
    · rw [applyCerts_eq_noTLS m r t htls hhad]; exact wdinv_certClear m _ h
    · have newLabelsKey : ∀ (vec : List (CertLabels × ℚ)) (l : CertLabels),
          l ∈ (setCertSeries r t.certificates vec).2 → labelKeyOfCert l = baseKeyOf r := by
        intro vec l hlmem
        rcases setCertSeries_labels r t.certificates vec l hlmem with ⟨c, _, rfl⟩
        exact labelKeyOfCert_certLabelOf r c
      cases hl : mapLookup m.lastCertByKey (baseKeyOf r) with
      | some prevs =>
        rw [applyCerts_eq_tls_some m r t prevs htls hhad hl]
        refine ⟨h.valNodup, h.durNodup,
          setCertSeries_keysNodup _ _ _ (keysNodup_gaugeDeleteAll _ _ h.certNodup),
          h.valTracked, h.durTracked, ?_⟩
        intro p hp
        rcases setCertSeries_mem r t.certificates _ p hp with hin | hlab
        · rcases (mem_gaugeDeleteAll _ _ _).mp hin with ⟨hv, hnp⟩
          rcases h.certTracked p hv with ⟨ls, hls, hmem⟩
          by_cases hk : labelKeyOfCert p.1 = baseKeyOf r
          · rw [hk, hl] at hls
            exact absurd ((Option.some.inj hls).symm ▸ hmem) hnp
          · exact ⟨ls, by rw [mapLookup_insert_ne _ _ _ _ hk]; exact hls, hmem⟩
        · refine ⟨_, ?_, hlab⟩
          rw [newLabelsKey _ _ hlab, mapLookup_insert_self]
      | none =>
        rw [applyCerts_eq_tls_none m r t htls hhad hl]
        refine ⟨h.valNodup, h.durNodup, setCertSeries_keysNodup _ _ _ h.certNodup,
          h.valTracked, h.durTracked, ?_⟩
        intro p hp
        rcases setCertSeries_mem r t.certificates _ p hp with hin | hlab
        · rcases h.certTracked p hin with ⟨ls, hls, hmem⟩
          by_cases hk : labelKeyOfCert p.1 = baseKeyOf r
          · rw [hk, hl] at hls
            exact Option.noConfusion hls
          · exact ⟨ls, by rw [mapLookup_insert_ne _ _ _ _ hk]; exact hls, hmem⟩
        · refine ⟨_, ?_, hlab⟩
          rw [newLabelsKey _ _ hlab, mapLookup_insert_self]

theorem wdinv_OnResult (m : WDMetrics) (r : Result) (h : WDInv m) :
    WDInv (OnResult m r) :=
  wdinv_applyCerts _ _ (wdinv_applyValDur _ _ h)

theorem wdinv_foldl (rs : List Result) (m : WDMetrics) (h : WDInv m) :
    WDInv (rs.foldl OnResult m) := by
  induction rs generalizing m with
  | nil => exact h
  | cons r rs ih => exact ih _ (wdinv_OnResult m r h)

theorem wdinv_applyResults (rs : List Result) : WDInv (applyResults rs) :=
  wdinv_foldl rs NewWDMetrics wdinv_new

/-- A filtered gauge vector whose keys are pairwise distinct and all filtered entries
share one label has at most one element. -/
theorem filter_length_le_one {L : Type} (vec : List (L × ℚ)) (q : L × ℚ → Bool) (u : L)
    (hnd : KeysNodup vec) (hall : ∀ p ∈ vec, q p = true → p.1 = u) :
    (vec.filter q).length ≤ 1 := by
  induction vec with
  | nil => simp
  | cons a as ih =>
    rw [KeysNodup, List.map_cons, List.nodup_cons] at hnd
    by_cases hq : q a
    · rw [List.filter_cons_of_pos hq]
      have hempty : as.filter q = [] := by
        rw [List.filter_eq_nil_iff]
        intro p hp hqp
        have h1 : p.1 = u := hall p (List.mem_cons_of_mem _ hp) hqp
        have h2 : a.1 = u := hall a (List.mem_cons_self _ _) hq
        exact hnd.1 (List.mem_map.mpr ⟨p, hp, by rw [h1, h2]⟩)
      rw [hempty]
      simp
    · rw [List.filter_cons_of_neg (by simpa using hq)]
      exact ih hnd.2 (fun p hp hqp => hall p (List.mem_cons_of_mem _ hp) hqp)

/-- A gauge vector whose entries are all tracked in a key map has at most one live
series per target key. -/
theorem tracked_filter_le_one (vec : List (ResultLabels × ℚ))
    (mp : List (String × ResultLabels)) (k : String) (hnd : KeysNodup vec)
    (htr : ∀ p ∈ vec, mapLookup mp (labelKeyOfResult p.1) = some p.1) :
    (vec.filter (fun p => decide (labelKeyOfResult p.1 = k))).length ≤ 1 := by
  cases hl : mapLookup mp k with
  | none =>
    have hempty : vec.filter (fun p => decide (labelKeyOfResult p.1 = k)) = [] := by
      rw [List.filter_eq_nil_iff]
      intro p hp hq
      have hk : labelKeyOfResult p.1 = k := by simpa using hq
      have hold := htr p hp
      rw [hk, hl] at hold
      exact Option.noConfusion hold
    rw [hempty]
    simp
  | some u =>
    refine filter_length_le_one vec _ u hnd ?_
    intro p hp hq
    have hk : labelKeyOfResult p.1 = k := by simpa using hq
    have hold := htr p hp
    rw [hk, hl] at hold
    exact (Option.some.inj hold).symm

theorem validationSeriesFor_le_one (m : WDMetrics) (h : WDInv m) (k : String) :
    (validationSeriesFor m k).length ≤ 1 :=
  tracked_filter_le_one _ _ k h.valNodup h.valTracked

theorem durationSeriesFor_le_one (m : WDMetrics) (h : WDInv m) (k : String) :
    (durationSeriesFor m k).length ≤ 1 :=
  tracked_filter_le_one _ _ k h.durNodup h.durTracked

theorem onResult_validation_mem (m : WDMetrics) (r : Result) :
    (lblAllOf r, 1) ∈ (OnResult m r).endpointValidation := by
  rw [OnResult, applyCerts_endpointValidation]
  cases hl : mapLookup m.lastByKey (baseKeyOf r) with
  | some prev =>
    rw [applyValDur_eq_some m r prev hl]
    exact (mem_gaugeSet _ _ _ _).mpr (Or.inl rfl)
  | none =>
    rw [applyValDur_eq_none m r hl]
    exact (mem_gaugeSet _ _ _ _).mpr (Or.inl rfl)

theorem onResult_duration_mem (m : WDMetrics) (r : Result) :
    (lblAllOf r, r.duration) ∈ (OnResult m r).endpointDuration := by
  rw [OnResult, applyCerts_endpointDuration]
  cases hl : mapLookup m.lastByKey (baseKeyOf r) with
  | some prev =>
    rw [applyValDur_eq_some m r prev hl]
    exact (mem_gaugeSet _ _ _ _).mpr (Or.inl rfl)
  | none =>
    rw [applyValDur_eq_none m r hl]
    exact (mem_gaugeSet _ _ _ _).mpr (Or.inl rfl)

theorem validationSeriesFor_onResult_eq_one (m : WDMetrics) (r : Result) (h : WDInv m) :
    (validationSeriesFor (OnResult m r) (baseKeyOf r)).length = 1 := by
  have hinv := wdinv_OnResult m r h
  have hle := validationSeriesFor_le_one _ hinv (baseKeyOf r)
  have hmem : (lblAllOf r, 1) ∈ validationSeriesFor (OnResult m r) (baseKeyOf r) :=
    List.mem_filter.mpr ⟨onResult_validation_mem m r, by
      simp [labelKeyOfResult_lblAllOf]⟩
  have hpos : 0 < (validationSeriesFor (OnResult m r) (baseKeyOf r)).length :=
    List.length_pos.mpr (List.ne_nil_of_mem hmem)
  omega

theorem durationSeriesFor_onResult_eq_one (m : WDMetrics) (r : Result) (h : WDInv m) :
    (durationSeriesFor (OnResult m r) (baseKeyOf r)).length = 1 := by
  have hinv := wdinv_OnResult m r h
  have hle := durationSeriesFor_le_one _ hinv (baseKeyOf r)
  have hmem : (lblAllOf r, r.duration) ∈ durationSeriesFor (OnResult m r) (baseKeyOf r) :=
    List.mem_filter.mpr ⟨onResult_duration_mem m r, by
      simp [labelKeyOfResult_lblAllOf]⟩
  have hpos : 0 < (durationSeriesFor (OnResult m r) (baseKeyOf r)).length :=
    List.length_pos.mpr (List.ne_nil_of_mem hmem)
  omega

/-! ## Claim theorems -/

/-- Claim C1: the status derivation policy is a priority order with first match winning —
for every Result carrying a TLS report, `hadTLS = false` yields `invalid-tls-missing`,
and `hadTLS = true` with `chainValid = false` yields `invalid-tls-chain`, regardless of
the Result's error, its own status string, and the later classification steps. -/
theorem deriveStatus_tls_report_priority (r : Result) (t : CertsReport)
    (h : r.tls = some t) :
    (t.hadTLS = false → deriveStatus r = "invalid-tls-missing")
  ∧ (t.hadTLS = true → t.chainValid = false → deriveStatus r = "invalid-tls-chain") := by
  constructor
  · intro h1
    simp [deriveStatus, h, h1]
  · intro h1 h2
    simp [deriveStatus, h, h1, h2]

/-- Witness for C1: concrete Results with a missing-TLS report and an invalid-chain
report, each carrying an error and a status of their own, get the TLS-derived labels. -/
theorem deriveStatus_tls_report_priority_witness :
    deriveStatus rC1missing = "invalid-tls-missing"
  ∧ deriveStatus rC1chain = "invalid-tls-chain" :=
  ⟨(deriveStatus_tls_report_priority rC1missing ⟨false, false, []⟩ rfl).1 rfl,
   (deriveStatus_tls_report_priority rC1chain ⟨true, false, []⟩ rfl).2 rfl rfl⟩

/-- Claim C9: `Engine.keyOf` returns exactly the same string as `Store.keyOf` for every
Result, so edge-triggered logging state and stored results share one key space. -/
theorem engine_store_keyOf_agree (r : Result) : Engine.keyOf r = Store.keyOf r := rfl

/-- Claim C6: replaying `RebuildAll` twice on an unchanged Result Store snapshot leaves
exactly the state (exported series and last-applied tracking maps) one call produces. -/
theorem rebuildAll_idempotent (m : WDMetrics) (snapshot : List Result) :
    RebuildAll (RebuildAll m snapshot) snapshot = RebuildAll m snapshot := rfl

/-- Claim C7: after `OnResult`, the last-probe-timestamp gauge for the base label set
equals the Result's completion time as a Unix integer, on every call regardless of
status. -/
theorem onResult_last_probe_timestamp (m : WDMetrics) (r : Result) :
    gaugeLookup (OnResult m r).endpointLastProbeTimestamp (lblBaseOf r)
      = some ((r.completedAt : ℚ)) := by
  rw [OnResult, applyCerts_lastProbe]
  cases hl : mapLookup m.lastByKey (baseKeyOf r) with
  | some prev =>
    rw [applyValDur_eq_some m r prev hl]
    exact gaugeLookup_set_self _ _ _
  | none =>
    rw [applyValDur_eq_none m r hl]
    exact gaugeLookup_set_self _ _ _

/-- Claim C10: `deriveStatus` is total and never returns the empty string; a Result with
empty status, no error and no TLS report falls through to `valid`. -/
theorem deriveStatus_total_nonempty :
    (∀ r : Result, deriveStatus r ≠ "")
  ∧ (∀ r : Result, r.status = "" → r.err = none → r.tls = none →
      deriveStatus r = "valid") := by
  have tail_ne : ∀ r : Result, deriveStatusTail r ≠ "" := by
    intro r
    unfold deriveStatusTail
    cases r.err with
    | some e =>
      dsimp only
      split_ifs with h1 h2
      · exact h1
      · exact h2
      · decide
    | none =>
      dsimp only
      split_ifs with h1
      · exact h1
      · decide
  constructor
  · intro r
    unfold deriveStatus
    cases r.tls with
    | some t =>
      dsimp only
      split_ifs
      · decide
      · decide
      · exact tail_ne r
    | none => exact tail_ne r
  · intro r h1 h2 h3
    simp [deriveStatus, h3, deriveStatusTail, h2, h1]

/-- Witness for C10: the all-empty Result derives a non-empty status, namely `valid`. -/
theorem deriveStatus_total_nonempty_witness :
    deriveStatus rC10 ≠ "" ∧ deriveStatus rC10 = "valid" :=
  ⟨deriveStatus_total_nonempty.1 rC10,
   deriveStatus_total_nonempty.2 rC10 rfl rfl rfl⟩

/-- Claim C2: starting from the fresh metrics state, after any sequence of `OnResult`
calls each target key has at most one live validation series, at most one live duration
series, and its live certificate series all belong to the single tracked label-set list;
after two further consecutive calls for one key with different statuses, exactly one
validation and one duration series exist for that key. -/
theorem onResult_at_most_one_series (rs : List Result) (r1 r2 : Result)
    (_hk : baseKeyOf r1 = baseKeyOf r2)
    (_hs : deriveStatus r1 ≠ deriveStatus r2) :
    (∀ k, (validationSeriesFor (applyResults rs) k).length ≤ 1
       ∧ (durationSeriesFor (applyResults rs) k).length ≤ 1
       ∧ ∀ p ∈ (applyResults rs).endpointTLSCertDaysLeft, labelKeyOfCert p.1 = k →
           ∃ ls, mapLookup (applyResults rs).lastCertByKey k = some ls ∧ p.1 ∈ ls)
  ∧ (validationSeriesFor (OnResult (OnResult (applyResults rs) r1) r2)
       (baseKeyOf r2)).length = 1
  ∧ (durationSeriesFor (OnResult (OnResult (applyResults rs) r1) r2)
       (baseKeyOf r2)).length = 1 := by
  have hinv := wdinv_applyResults rs
  refine ⟨fun k => ⟨validationSeriesFor_le_one _ hinv k,
    durationSeriesFor_le_one _ hinv k, ?_⟩, ?_, ?_⟩
  · intro p hp hpk
    rcases hinv.certTracked p hp with ⟨ls, hls, hmem⟩
    rw [hpk] at hls
    exact ⟨ls, hls, hmem⟩
  · exact validationSeriesFor_onResult_eq_one _ r2 (wdinv_OnResult _ r1 hinv)
  · exact durationSeriesFor_onResult_eq_one _ r2 (wdinv_OnResult _ r1 hinv)

/-- Witness for C2: two consecutive results for one key, `valid` then
`unexpected-status-code`, leave exactly one validation and one duration series. -/
theorem onResult_at_most_one_series_witness :
    (∀ k, (validationSeriesFor (applyResults []) k).length ≤ 1
       ∧ (durationSeriesFor (applyResults []) k).length ≤ 1
       ∧ ∀ p ∈ (applyResults []).endpointTLSCertDaysLeft, labelKeyOfCert p.1 = k →
           ∃ ls, mapLookup (applyResults []).lastCertByKey k = some ls ∧ p.1 ∈ ls)
  ∧ (validationSeriesFor (OnResult (OnResult (applyResults []) r1C2) r2C2)
       (baseKeyOf r2C2)).length = 1
  ∧ (durationSeriesFor (OnResult (OnResult (applyResults []) r1C2) r2C2)
       (baseKeyOf r2C2)).length = 1 :=
  onResult_at_most_one_series [] r1C2 r2C2 rfl (by decide)

/-- Shared helper: one mismatching required header makes the header loop fail. -/
theorem headersMismatch_of_mem (h : List (String × List String))
    (hs : List (String × String)) (k expected : String)
    (hmem : (k, expected) ∈ hs) (hne : headerGet h k ≠ expected) :
    headersMismatch h hs = true := by
  induction hs with
  | nil => cases hmem
  | cons a rest ih =>
    obtain ⟨k2, e2⟩ := a
    rcases List.mem_cons.mp hmem with heq | hmem2
    · injection heq with hk he
      subst hk
      subst he
      unfold headersMismatch
      rw [if_pos hne]
    · unfold headersMismatch
      split
      · rfl
      · exact ih hmem2

/-- Counterexample for C3: the code checks required headers with a canonicalized,
case-insensitive key (`http.Header.Get`), not a case-sensitive one — a rule naming the
header `x-test` matches a response header stored as `X-Test`, while the spec's
case-sensitive reading would reject it. -/
theorem validateResponse_header_case_counterexample :
    ValidateResponse goRegexpMatchLit respC3 0 evC3 = ("valid", none)
  ∧ ValidateResponseCaseSensitive goRegexpMatchLit respC3 0 evC3
      = ("unexpected-header-value", none)
  ∧ ValidateResponse goRegexpMatchLit respC3 0 evC3
      ≠ ValidateResponseCaseSensitive goRegexpMatchLit respC3 0 evC3 := by
  refine ⟨by decide, by decide, by decide⟩

/-- Claim C3 (amended): each required header is checked with a MIME-canonicalized,
case-insensitive key against the first value of that header; a mismatch yields
`unexpected-header-value` and short-circuits before the body check (the outcome is
independent of the body). -/
theorem validateResponse_header_canonical (rm : String → List Char → Bool)
    (resp : Response) (limit : Int) (v : EndpointValidation) :
    (∀ k expected body bodyErr, resp.statusCode = v.statusCode →
        (k, expected) ∈ v.headers → headerGet resp.header k ≠ expected →
        ValidateResponse rm { resp with body := body, bodyErr := bodyErr } limit v
          = ("unexpected-header-value", none))
  ∧ (∀ k1 k2, canonicalMIMEHeaderKey k1 = canonicalMIMEHeaderKey k2 →
        headerGet resp.header k1 = headerGet resp.header k2)
  ∧ (∀ k v0 vs rest,
        headerGet ((canonicalMIMEHeaderKey k, v0 :: vs) :: rest) k = v0) := by
  refine ⟨?_, ?_, ?_⟩
  · intro k expected body bodyErr hsc hmem hne
    have hmis : headersMismatch resp.header v.headers = true :=
      headersMismatch_of_mem _ _ _ _ hmem hne
    simp only [ValidateResponse]
    rw [if_neg (by simp [hsc]), if_pos (by simpa using hmis)]
  · intro k1 k2 hcanon
    simp [headerGet, hcanon]
  · intro k v0 vs rest
    simp [headerGet]

/-- Witness for C3 (amended): the lowercase rule key `x-test` is matched against the
canonical `X-Test` response header; a wrong expected value fails with
`unexpected-header-value` whatever the body holds, and `x-test`/`X-TEST` read the same
header. -/
theorem validateResponse_header_canonical_witness :
    ValidateResponse goRegexpMatchLit
        { respC3 with body := "zz".data, bodyErr := none } 5 evC3mis
      = ("unexpected-header-value", none)
  ∧ headerGet respC3.header "x-test" = headerGet respC3.header "X-TEST" :=
  ⟨(validateResponse_header_canonical goRegexpMatchLit respC3 5 evC3mis).1
      "x-test" "other" "zz".data none rfl (by decide) (by decide),
   (validateResponse_header_canonical goRegexpMatchLit respC3 5 evC3mis).2.1
      "x-test" "X-TEST" (by decide)⟩

/-- Counterexample for C4: a `url.Error` wrapping a transport error whose text mentions
a chain (but none of `tls`, `certificate`, `handshake`) is NOT recognized — the code's
substring fallback does not check the spec's per-category substrings, so the claim's
classifier disagrees with the code here. -/
theorem checkHandshakeError_substring_counterexample :
    CheckHandshakeError errC4 = ("", false)
  ∧ (classifyHandshakeErrorSpec errC4).2 = true
  ∧ CheckHandshakeError errC4 ≠ classifyHandshakeErrorSpec errC4 := by
  refine ⟨by decide, by decide, by decide⟩

/-- Claim C4 (amended): `CheckHandshakeError` inspects the error by structural type
first (certificate-invalid distinguishing expired versus other, unknown-authority,
hostname-mismatch — the latter two both labelled `invalid-tls-chain` and
`invalid-tls-hostname` respectively); the fallback applies only to `url.Error`-wrapped
errors and recognizes the wrapped error structurally or by the substrings `tls`,
`certificate`, `handshake`, always returning `invalid-tls-chain`; anything else yields
`matched = false` so the caller falls back to generic transport-error handling. -/
theorem checkHandshakeError_classification (err : GoError) :
    (err.asCertificateInvalid = some true →
        CheckHandshakeError err = ("expired-cert-leaf", true))
  ∧ (err.asCertificateInvalid = some false →
        CheckHandshakeError err = ("invalid-tls-certificate", true))
  ∧ (err.asCertificateInvalid = none → err.asUnknownAuthority = true →
        CheckHandshakeError err = ("invalid-tls-chain", true))
  ∧ (err.asCertificateInvalid = none → err.asUnknownAuthority = false →
        err.asHostnameError = true →
        CheckHandshakeError err = ("invalid-tls-hostname", true))
  ∧ (∀ op u w, err.asCertificateInvalid = none → err.asUnknownAuthority = false →
        err.asHostnameError = false → err = .urlError op u w → isTLSError w = true →
        CheckHandshakeError err = ("invalid-tls-chain", true))
  ∧ (∀ op u w, err.asCertificateInvalid = none → err.asUnknownAuthority = false →
        err.asHostnameError = false → err = .urlError op u w → isTLSError w = false →
        CheckHandshakeError err = ("", false))
  ∧ (err.asCertificateInvalid = none → err.asUnknownAuthority = false →
        err.asHostnameError = false → err.asURLError = none →
        CheckHandshakeError err = ("", false)) := by
  refine ⟨?_, ?_, ?_, ?_, ?_, ?_, ?_⟩ <;> intros <;>
    simp_all [CheckHandshakeError, GoError.asURLError]

/-- Witness for C4 (amended): an expired-certificate structural error maps to
`expired-cert-leaf`, and the unrecognized wrapped error is rejected. -/
theorem checkHandshakeError_classification_witness :
    CheckHandshakeError (GoError.certificateInvalid true "x509: certificate has expired")
      = ("expired-cert-leaf", true)
  ∧ CheckHandshakeError errC4 = ("", false) :=
  ⟨(checkHandshakeError_classification
      (GoError.certificateInvalid true "x509: certificate has expired")).1 rfl,
   (checkHandshakeError_classification errC4).2.2.2.2.2.1 "Get" "https://example.com"
      (GoError.basic "broken chain") rfl rfl rfl rfl (by decide)⟩

/-- Claim C5: with a non-empty body pattern, at most `responseBodyLimit` bytes are read
and the pattern is tested against exactly that prefix — `"abcdef"` with limit 3 matches
`"abc"` (`valid`) but not `"abcd"` (`unexpected-body-regex`); the outcome depends only
on the first `limit` bytes of the stream (so a later byte or failure is never
observed), and with no body pattern the body is not consumed at all. -/
theorem validateResponse_body_limit :
    (ValidateResponse goRegexpMatchLit ⟨200, [], "abcdef".data, none⟩ 3 ⟨200, [], "abc"⟩
        = ("valid", none))
  ∧ (ValidateResponse goRegexpMatchLit ⟨200, [], "abcdef".data, none⟩ 3 ⟨200, [], "abcd"⟩
        = ("unexpected-body-regex", none))
  ∧ (∀ (rm : String → List Char → Bool) (sc : Int) (hdr : List (String × List String))
        (limit : Int) (v : EndpointValidation) (b1 b2 : List Char)
        (e1 e2 : Option ReadErr), limit.toNat ≤ b1.length → limit.toNat ≤ b2.length →
        b1.take limit.toNat = b2.take limit.toNat →
        ValidateResponse rm ⟨sc, hdr, b1, e1⟩ limit v
          = ValidateResponse rm ⟨sc, hdr, b2, e2⟩ limit v)
  ∧ (∀ (rm : String → List Char → Bool) (sc : Int) (hdr : List (String × List String))
        (limit : Int) (v : EndpointValidation) (b1 b2 : List Char)
        (e1 e2 : Option ReadErr), v.bodyRegex = "" →
        ValidateResponse rm ⟨sc, hdr, b1, e1⟩ limit v
          = ValidateResponse rm ⟨sc, hdr, b2, e2⟩ limit v) := by
  refine ⟨by decide, by decide, ?_, ?_⟩
  · intro rm sc hdr limit v b1 b2 e1 e2 h1 h2 h3
    have hr : readLimited limit b1 e1 = readLimited limit b2 e2 := by
      unfold readLimited
      rw [if_pos h1, if_pos h2, h3]
    simp only [ValidateResponse]
    rw [hr]
  · intro rm sc hdr limit v b1 b2 e1 e2 h
    simp [ValidateResponse, h]

/-- Witness for C5: the stream content and error after the 3-byte limit are invisible,
and with no pattern the body is irrelevant. -/
theorem validateResponse_body_limit_witness :
    ValidateResponse goRegexpMatchLit ⟨200, [], "abcdef".data, none⟩ 3 ⟨200, [], "abc"⟩
      = ValidateResponse goRegexpMatchLit
          ⟨200, [], "abcxyz".data, some ⟨true, "late failure"⟩⟩ 3 ⟨200, [], "abc"⟩
  ∧ ValidateResponse goRegexpMatchLit ⟨200, [], "a".data, none⟩ 3 ⟨200, [], ""⟩
      = ValidateResponse goRegexpMatchLit ⟨200, [], "zzz".data, none⟩ 3 ⟨200, [], ""⟩ :=
  ⟨validateResponse_body_limit.2.2.1 goRegexpMatchLit 200 [] 3 ⟨200, [], "abc"⟩
      "abcdef".data "abcxyz".data none (some ⟨true, "late failure"⟩)
      (by decide) (by decide) (by decide),
   validateResponse_body_limit.2.2.2 goRegexpMatchLit 200 [] 3 ⟨200, [], ""⟩
      "a".data "zzz".data none none rfl⟩

/-- Claim C8: a target URL that fails to parse yields status `invalid-url` immediately
with zero duration, and a configured proxy URL that fails to parse yields
`invalid-proxy-definition` with zero duration — each reported as the Result status
together with the underlying parse error (the embedding is a total function: no
crash). -/
theorem validate_parse_failure_statuses {U : Type} (parseURL : String → Except GoError U)
    (run : U → Option U → String × ℚ × Option CertsReport × Option GoError)
    (rc : EndpointRequest) (route : Route) :
    (∀ e, parseURL rc.url = .error e →
        Validate parseURL run rc route = ("invalid-url", 0, none, some e))
  ∧ (∀ u pErr, parseURL rc.url = .ok u → route.proxyUrl ≠ "" →
        parseURL route.proxyUrl = .error pErr →
        Validate parseURL run rc route
          = ("invalid-proxy-definition", 0, none, some pErr)) := by
  constructor
  · intro e he
    simp [Validate, he]
  · intro u pErr hu hproxy hp
    simp [Validate, hu, hproxy, hp]

/-- Witness for C8: with a parser accepting one URL, a bad target URL and a bad proxy
URL produce the two configuration-failure statuses with zero duration. -/
theorem validate_parse_failure_statuses_witness :
    Validate parseC8 runC8 rcBadC8 routeDirectC8
      = ("invalid-url", 0, none, some (GoError.basic "://bad"))
  ∧ Validate parseC8 runC8 rcOkC8 routeProxyC8
      = ("invalid-proxy-definition", 0, none, some (GoError.basic "://badproxy")) :=
  ⟨(validate_parse_failure_statuses parseC8 runC8 rcBadC8 routeDirectC8).1
      (GoError.basic "://bad") rfl,
   (validate_parse_failure_statuses parseC8 runC8 rcOkC8 routeProxyC8).2
      () (GoError.basic "://badproxy") rfl (by decide) rfl⟩
